import Mathlib

/-!
Verification of the logging facade of h2o-llmstudio.

This file gives a shallow embedding of the two source files

  * `llm_studio/src/loggers.py`        (get_cfg, LocalLogger, DummyLogger,
                                        AimLogger's value normalization,
                                        MainLogger, Loggers)
  * `llm_studio/src/utils/config_utils.py` (_load_cls, load_config)

and proves the spec's testable properties about them.

Modelling conventions:
  * Python scalar values are the inductive `PyObj`; a float NaN is its own
    constructor `pnan`, finite floats are modelled as rationals `pfloat q`.
    (Numeric-string parsing by Python's `float(str)` is not modelled: the
    embedding maps `float` applied to a string to a `ValueError`; every
    theorem below only ever applies the coercion to numeric values, where
    the embedding is exact.)
  * Python dicts are association lists with Python's insertion semantics:
    writing to a present key updates the value in place (the key keeps its
    original position), writing to an absent key appends at the end.
  * The SqliteDict store of `LocalLogger` is such a dict from subset keys to
    per-subset dicts; commits are synchronous, so each `log` call is a pure
    state transition.  Exceptions are modelled with `Except`.
  * Side-effecting calls into external services (neptune/aim sessions) carry
    no local state; for them the model records only whether the call raises.
-/

/-- Python exception classes that the modelled code can raise. -/
inductive PyErr where
  | typeError
  | valueError
  | runtimeError
  deriving DecidableEq, Repr

/-- Python scalar values as they flow through the loggers: ints, finite
floats (as rationals), the float NaN, bools, strings and `None`. -/
inductive PyObj where
  | pint (n : Int)
  | pfloat (q : ℚ)
  | pnan
  | pbool (b : Bool)
  | pstr (s : String)
  | pnone
  deriving DecidableEq, Repr

/-- Embedding of `np.isnan(value)`: defined on numeric values (ints, floats,
bools), `True` exactly on NaN; raises `TypeError` on strings and `None`. -/
def npIsNan : PyObj → Except PyErr Bool
  | .pint _ => .ok false
  | .pfloat _ => .ok false
  | .pnan => .ok true
  | .pbool _ => .ok false
  | .pstr _ => .error .typeError
  | .pnone => .error .typeError

/-- Embedding of Python's `float(value)` coercion.  Ints, floats, bools and
NaN behave exactly as in Python; `float(None)` raises `TypeError`.  `float`
of a string is modelled as a `ValueError` (Python would parse numeric
strings; no theorem below exercises that case). -/
def pyFloat : PyObj → Except PyErr PyObj
  | .pint n => .ok (.pfloat n)
  | .pfloat q => .ok (.pfloat q)
  | .pnan => .ok .pnan
  | .pbool b => .ok (.pfloat (if b then 1 else 0))
  | .pstr _ => .error .valueError
  | .pnone => .error .typeError

/-- Values on which `np.isnan` is defined (the numeric values). -/
def metricVal : PyObj → Bool
  | .pint _ => true
  | .pfloat _ => true
  | .pnan => true
  | .pbool _ => true
  | .pstr _ => false
  | .pnone => false

/-- Embedding of the normalization line shared by `LocalLogger.log` and
`AimLogger.log`:  `value = None if np.isnan(value) else float(value)`. -/
def normalizeMetricValue (v : PyObj) : Except PyErr (Option PyObj) :=
  match npIsNan v with
  | .error e => .error e
  | .ok true => .ok none
  | .ok false =>
    match pyFloat v with
    | .error e => .error e
    | .ok w => .ok (some w)

/-- The pure result of the normalization on numeric values: NaN becomes the
null marker `none`, every other numeric value is float-coerced. -/
def normPure : PyObj → Option PyObj
  | .pnan => none
  | .pint n => some (.pfloat n)
  | .pfloat q => some (.pfloat q)
  | .pbool b => some (.pfloat (if b then 1 else 0))
  | .pstr s => some (.pstr s)
  | .pnone => some .pnone

/-- Whether `pat` is a prefix-at-some-position of `l`. -/
def listInfixB (pat : List Char) : List Char → Bool
  | [] => List.isPrefixOf pat []
  | c :: rest => List.isPrefixOf pat (c :: rest) || listInfixB pat rest

/-- Python substring test `pat in s`. -/
def strContains (s pat : String) : Bool :=
  listInfixB pat.toList s.toList

/-! ### Python dicts as association lists -/

/-- Lookup in a Python dict (`d[k]` / `k in d`). -/
def alookup {α : Type} : List (String × α) → String → Option α
  | [], _ => none
  | (k', v') :: rest, k => if k' = k then some v' else alookup rest k

/-- Python dict assignment `d[k] = v`: update in place if the key is
present (keeping its position), append otherwise. -/
def pyInsert {α : Type} : List (String × α) → String → α → List (String × α)
  | [], k, v => [(k, v)]
  | (k', v') :: rest, k, v =>
    if k' = k then (k, v) :: rest else (k', v') :: pyInsert rest k v

/-- The keys of a dict, in insertion order. -/
def keysOf {α : Type} (d : List (String × α)) : List String :=
  d.map Prod.fst

/-- Inserting every pair of `l` into `d`, left to right. -/
def foldInsert {α : Type} (d l : List (String × α)) : List (String × α) :=
  l.foldl (fun d kv => pyInsert d kv.1 kv.2) d

/-- Embedding of the Python dict merge `{**a, **b}`: the result starts from
`a` and inserts each pair of `b` in order (present keys keep their position
and take `b`'s value, new keys are appended in `b`'s order). -/
def pyMerge {α : Type} (a b : List (String × α)) : List (String × α) :=
  foldInsert a b

/-! ### LocalLogger's store (`<output_directory>/charts.db`) -/

/-- A value stored in a per-subset dict of the charts store: either a raw
value (image/html artifacts, and the scalars of the `cfg` record) or a
`{steps: [...], values: [...]}` time series. -/
inductive Entry where
  | raw (v : PyObj)
  | series (steps : List (Option Int)) (values : List (Option PyObj))
  deriving DecidableEq, Repr

/-- The SqliteDict store: a dict from top-level keys (`"cfg"`, subset names)
to per-key dicts of entries. -/
abbrev LocalStore : Type := List (String × List (String × Entry))

/-- Embedding of `LocalLogger.__init__`'s store initialisation: write the
flattened config under key `"cfg"` and commit.  (Opening the store and the
sqlite commit are IO; in the model the store is the pure state.) -/
def LocalLogger.init (params : List (String × PyObj)) : LocalStore :=
  [("cfg", params.map (fun kv => (kv.1, Entry.raw kv.2)))]

/-- Embedding of `LocalLogger.log`.  For subsets `"image"`/`"html"` the raw
value is stored under the name (last write wins); otherwise the value is
normalized (`None if np.isnan(value) else float(value)`) and `(step, value)`
is appended to the per-(subset, name) series, which is created on first use.
Appending into an entry that is not a series (a raw scalar) raises
`TypeError` in Python (subscripting a non-dict), and so does `np.isnan` on a
non-numeric value; both are modelled as `.error`. -/
def LocalLogger.log (st : LocalStore) (subset name : String) (value : PyObj)
    (step : Option Int) : Except PyErr LocalStore :=
  if subset = "image" ∨ subset = "html" then
    let subdict := (alookup st subset).getD []
    .ok (pyInsert st subset (pyInsert subdict name (.raw value)))
  else
    match normalizeMetricValue value with
    | .error e => .error e
    | .ok v =>
      let subdict := (alookup st subset).getD []
      match alookup subdict name with
      | none =>
        .ok (pyInsert st subset (pyInsert subdict name (.series [step] [v])))
      | some (.series ss vs) =>
        .ok (pyInsert st subset
              (pyInsert subdict name (.series (ss ++ [step]) (vs ++ [v]))))
      | some (.raw _) => .error .typeError

/-- The time series stored at (subset, name): `some ([], [])` when absent
(the series a fresh `log` call would extend), `some (steps, values)` when a
series is stored, `none` when a raw entry sits there. -/
def seriesAt (st : LocalStore) (subset name : String) :
    Option (List (Option Int) × List (Option PyObj)) :=
  match alookup st subset with
  | none => some ([], [])
  | some d =>
    match alookup d name with
    | none => some ([], [])
    | some (.series ss vs) => some (ss, vs)
    | some (.raw _) => none

/-- The entry stored at (subset, name), if any. -/
def entryAt (st : LocalStore) (subset name : String) : Option Entry :=
  match alookup st subset with
  | none => none
  | some d => alookup d name

/-- Embedding of `AimLogger.log`'s value computation: the value handed to
`self.logger.track` is the normalized metric value (the construction of the
aim session and the network call itself are external effects). -/
def AimLogger.logValue (v : PyObj) : Except PyErr (Option PyObj) :=
  normalizeMetricValue v

/-! ### Sinks, the Loggers factory and MainLogger -/

/-- The Python class of a sink instance, as tested by
`isinstance(logger, LocalLogger)` in `MainLogger.log`.  External classes
(`NeptuneLogger`, or any stub a test registers) are carried by name. -/
inductive LoggerCls where
  | localLogger
  | dummyLogger
  | externalLogger (tag : String)
  deriving DecidableEq, Repr

/-- A sink instance owned by `MainLogger`: its class, whether its `log`
method raises when invoked (a deliberately failing stub; the real
`DummyLogger.log` never raises and the real `LocalLogger.log` follows
`LocalLogger.log` above), and — for a `LocalLogger` — its store. -/
structure Sink where
  cls : LoggerCls
  raisesOnLog : Bool
  store : LocalStore
  deriving DecidableEq

/-- Invoking `sink.log(subset, name, value, step)` on a sink instance.
`LocalLogger.log` runs the store transition; `DummyLogger.log` is
`return`; an external sink has no local state and raises exactly when it is
a failing stub. -/
def Sink.log (s : Sink) (subset name : String) (value : PyObj)
    (step : Option Int) : Except PyErr Sink :=
  match s.cls with
  | .localLogger =>
    match LocalLogger.log s.store subset name value step with
    | .error e => .error e
    | .ok st => .ok { s with store := st }
  | .dummyLogger => .ok s
  | .externalLogger _ => if s.raisesOnLog then .error .runtimeError else .ok s

/-- A freshly constructed `DummyLogger()` instance. -/
def dummySink : Sink := { cls := .dummyLogger, raisesOnLog := false, store := [] }

/-- Embedding of the `Loggers` factory's registry
`_loggers = {"None": DummyLogger, "Neptune": NeptuneLogger}`. -/
def Loggers.registry : List (String × LoggerCls) :=
  [("None", .dummyLogger), ("Neptune", .externalLogger "Neptune")]

/-- Embedding of `Loggers.get`: `cls._loggers.get(name, DummyLogger)`. -/
def Loggers.get (name : String) : LoggerCls :=
  (alookup Loggers.registry name).getD .dummyLogger

/-- Lexicographic-by-code-point comparison of character lists, the order
Python uses on strings. -/
def charListLt : List Char → List Char → Bool
  | [], [] => false
  | [], _ :: _ => true
  | _ :: _, [] => false
  | c :: cs, d :: ds =>
    if c.toNat < d.toNat then true
    else if d.toNat < c.toNat then false
    else charListLt cs ds

/-- Embedding of Python's string comparison `a <= b`. -/
def strLeB (a b : String) : Bool :=
  !(charListLt b.toList a.toList)

/-- Insertion of a string into an ascending list, the building block of the
embedding of Python's `sorted`. -/
def insertSortedStr (x : String) : List String → List String
  | [] => [x]
  | y :: ys => if strLeB x y then x :: y :: ys else y :: insertSortedStr x ys

/-- Embedding of Python's `sorted` on a list of strings. -/
def pySorted (l : List String) : List String :=
  l.foldr insertSortedStr []

/-- Embedding of `Loggers.names`: `sorted(cls._loggers.keys())`. -/
def Loggers.names : List String :=
  pySorted (keysOf Loggers.registry)

/-- The `MainLogger` dispatcher state: the two slots of `self.loggers`
(dict insertion order: `"local"` first, `"external"` second). -/
structure MainLogger where
  localSink : Sink
  externalSink : Sink
  deriving DecidableEq

/-- Embedding of `MainLogger.__init__`.  The local slot always gets a fresh
`LocalLogger` (whose init wrote the config snapshot); the external
constructor call `self.loggers["external"](cfg)` is an effectful call into
an external service, so its outcome is a parameter: on `.ok` the
constructed sink fills the external slot, on `.error` the exception is
caught, one warning is emitted (`logger.warning(...)`) and the slot is set
to a fresh `DummyLogger(cfg)`.  The second component counts the warnings
emitted. -/
def MainLogger.init (params : List (String × PyObj))
    (ctorResult : Except PyErr Sink) : MainLogger × Nat :=
  match ctorResult with
  | .ok s =>
    ({ localSink := { cls := .localLogger, raisesOnLog := false,
                      store := LocalLogger.init params },
       externalSink := s }, 0)
  | .error _ =>
    ({ localSink := { cls := .localLogger, raisesOnLog := false,
                      store := LocalLogger.init params },
       externalSink := dummySink }, 1)

/-- The two `continue` filters of `MainLogger.log`, for slot key `k` and the
sink held in that slot. -/
def MainLogger.skips (subset name : String) (k : String) (s : Sink) : Bool :=
  (strContains name "validation_predictions" && k == "external") ||
    (subset == "internal" && !(s.cls == .localLogger))

/-- Embedding of `MainLogger.log`: iterate over
`[("local", localSink), ("external", externalSink)]`; skip a slot when a
filter fires, otherwise invoke `logger.log(...)`.  There is no exception
handling in the loop, so an exception propagates and stops the iteration;
state mutated before the exception persists.  The result is the list of
slot keys whose `log` method was invoked (in order), the dispatcher state
after all performed effects, and the propagated exception, if any. -/
def MainLogger.log (m : MainLogger) (subset name : String) (value : PyObj)
    (step : Option Int) : List String × MainLogger × Option PyErr :=
  if MainLogger.skips subset name "local" m.localSink then
    if MainLogger.skips subset name "external" m.externalSink then
      ([], m, none)
    else
      match Sink.log m.externalSink subset name value step with
      | .ok e => (["external"], { m with externalSink := e }, none)
      | .error err => (["external"], m, some err)
  else
    match Sink.log m.localSink subset name value step with
    | .error err => (["local"], m, some err)
    | .ok l =>
      if MainLogger.skips subset name "external" m.externalSink then
        (["local"], { m with localSink := l }, none)
      else
        match Sink.log m.externalSink subset name value step with
        | .ok e =>
          (["local", "external"],
           { m with localSink := l, externalSink := e }, none)
        | .error err => (["local", "external"], { m with localSink := l }, some err)

/-! ### config_utils: _load_cls and load_config -/

/-- A Python module as an attribute table: attribute name to the identity of
the class bound there. -/
structure PyModule where
  symbols : List (String × String)
  deriving DecidableEq, Repr

/-- The module-path fixing of `_load_cls`:
`module_path.removesuffix(".py").replace("/", ".")` — drop a final `".py"`
when present, then map every `'/'` to `'.'` (for the single-character
pattern `"/"`, Python's `replace` is exactly this character map). -/
def fixModulePath (p : String) : String :=
  let cs := if List.isSuffixOf ".py".toList p.toList
            then p.toList.take (p.toList.length - 3) else p.toList
  String.mk (cs.map (fun c => if c = '/' then '.' else c))

/-- Embedding of `_load_cls`.  The import environment maps dotted module
names to modules; `importlib.import_module` of an unknown module raises
(modelled as a `ModuleNotFoundError` message), the reloads
(`importlib.reload` / `rreload`) are identities in a pure environment, and
the `assert hasattr(module, cls_name)` raises an `AssertionError` carrying
the message `f"{module_path} file should contain {cls_name} class"` when
the attribute is missing. -/
def load_cls (env : List (String × PyModule)) (module_path cls_name : String) :
    Except String String :=
  match alookup env (fixModulePath module_path) with
  | none => .error ("ModuleNotFoundError: " ++ fixModulePath module_path)
  | some m =>
    match alookup m.symbols cls_name with
    | none => .error (module_path ++ " file should contain " ++ cls_name ++ " class")
    | some c => .ok c

/-- A constructed Python instance: the class it was built from and the
positional arguments the constructor received. -/
structure PyInstance where
  cls : String
  args : List PyObj
  deriving DecidableEq, Repr

/-- Embedding of `load_config`: `_load_cls(config_path, config_name)()` —
resolve the class, then instantiate it with no arguments. -/
def load_config (env : List (String × PyModule)) (config_path config_name : String) :
    Except String PyInstance :=
  match load_cls env config_path config_name with
  | .error e => .error e
  | .ok c => .ok { cls := c, args := [] }

/-! ### get_cfg: the config snapshot extractor -/

/-- A declared type annotation, as compared by `type_annotation == float`. -/
inductive TypeAnn where
  | tfloat
  | tother
  deriving DecidableEq, Repr

/-- A configuration instance as consumed by `get_cfg`: the sequence of its
fields in declared order (`cfg._get_order`), each carrying its name, its
visibility (`cfg._get_visibility`), and either a scalar value with its
declared type annotation, or a nested dataclass. -/
inductive Cfg where
  | nilC
  | consLeaf (name : String) (vis : Int) (ann : TypeAnn) (v : PyObj) (rest : Cfg)
  | consNode (name : String) (vis : Int) (sub : Cfg) (rest : Cfg)
  deriving DecidableEq, Repr

/-- The skip conditions of `get_cfg`: a field is kept unless its name is
underscore-prefixed, its visibility is negative, or its name contains
`"api"` (the exclusion list `["api"]`). -/
def keepField (name : String) (vis : Int) : Bool :=
  !(name.startsWith "_") && decide (0 ≤ vis) && !(strContains name "api")

/-- The value actually inserted for a leaf:
`float(v) if type_annotation == float else v`. -/
def coerceAnn (ann : TypeAnn) (v : PyObj) : Except PyErr PyObj :=
  if ann = .tfloat then pyFloat v else .ok v

/-- The body of `get_cfg`'s loop, with `items` the accumulator dict:
kept leaves are inserted (after coercion), kept nested dataclasses are
flattened recursively into a fresh dict and merged via `{**items, **t}`. -/
def getCfgGo : Cfg → List (String × PyObj) → Except PyErr (List (String × PyObj))
  | .nilC, items => .ok items
  | .consLeaf k vis ann v rest, items =>
    if keepField k vis then
      match coerceAnn ann v with
      | .error e => .error e
      | .ok w => getCfgGo rest (pyInsert items k w)
    else getCfgGo rest items
  | .consNode k vis sub rest, items =>
    if keepField k vis then
      match getCfgGo sub [] with
      | .error e => .error e
      | .ok t => getCfgGo rest (pyMerge items t)
    else getCfgGo rest items

/-- Embedding of `get_cfg`: run the loop on an empty dict. -/
def get_cfg (c : Cfg) : Except PyErr (List (String × PyObj)) :=
  getCfgGo c []

/-- A configuration is well-typed when every float-annotated leaf holds a
numeric value (so the `float(v)` coercion cannot raise). -/
def wellAnn : Cfg → Bool
  | .nilC => true
  | .consLeaf _ _ ann v rest =>
    (if ann = .tfloat then metricVal v else true) && wellAnn rest
  | .consNode _ _ sub rest => wellAnn sub && wellAnn rest

/-- Total coercion on well-typed leaves: float-annotated numeric values are
float-coerced, all other values pass through unchanged. -/
def coercePure (ann : TypeAnn) (v : PyObj) : PyObj :=
  if ann = .tfloat then
    match v with
    | .pint n => .pfloat n
    | .pfloat q => .pfloat q
    | .pnan => .pnan
    | .pbool b => .pfloat (if b then 1 else 0)
    | w => w
  else v

/-- Modelled from the spec's algorithm description: the sequence of included
leaf fields in declared (preorder) order — the filters applied at every
nesting level, nested records flattened in place and each kept leaf coerced
to its declared type. -/
def leafSeq : Cfg → List (String × PyObj)
  | .nilC => []
  | .consLeaf k vis ann v rest =>
    (if keepField k vis then [(k, coercePure ann v)] else []) ++ leafSeq rest
  | .consNode k vis sub rest =>
    (if keepField k vis then leafSeq sub else []) ++ leafSeq rest

/-- A sequence of `LocalLogger.log` calls for one (subset, name) pair,
given as `(step, value)` pairs; stops at the first exception. -/
def runLogs (subset name : String) :
    LocalStore → List (Option Int × PyObj) → Except PyErr LocalStore
  | st, [] => .ok st
  | st, (step, v) :: rest =>
    match LocalLogger.log st subset name v step with
    | .error e => .error e
    | .ok st' => runLogs subset name st' rest

/-- A small concrete configuration used to exercise `get_cfg`: a
float-annotated int leaf, a nested record holding an api-token field and a
visible field, and an underscore-prefixed leaf. -/
def cfgExample : Cfg :=
  Cfg.consLeaf "lr" 0 .tfloat (.pint 3)
    (Cfg.consNode "logging" 0
      (Cfg.consLeaf "neptune_api_token" 0 .tother (.pstr "t")
        (Cfg.consLeaf "mode" 1 .tother (.pstr "debug") .nilC))
      (Cfg.consLeaf "_priv" 0 .tother (.pint 1) .nilC))

/-! ### Association-list lemmas -/

theorem alookup_pyInsert_self {α : Type} (d : List (String × α)) (k : String) (v : α) :
    alookup (pyInsert d k v) k = some v := by
  induction d with
  | nil => simp [pyInsert, alookup]
  | cons hd tl ih =>
    obtain ⟨k', v'⟩ := hd
    by_cases h : k' = k
    · simp [pyInsert, h, alookup]
    · simp [pyInsert, h, alookup, ih]

theorem alookup_pyInsert_ne {α : Type} (d : List (String × α)) (k k' : String) (v : α)
    (h : k' ≠ k) : alookup (pyInsert d k v) k' = alookup d k' := by
  induction d with
  | nil => simp [pyInsert, alookup, Ne.symm h]
  | cons hd tl ih =>
    obtain ⟨k₁, v₁⟩ := hd
    by_cases h1 : k₁ = k
    · subst h1
      simp [pyInsert, alookup, Ne.symm h]
    · simp only [pyInsert, if_neg h1, alookup]
      by_cases h2 : k₁ = k'
      · simp [h2]
      · simp [h2, ih]

theorem mem_keysOf_pyInsert_self {α : Type} (d : List (String × α)) (k : String) (v : α) :
    k ∈ keysOf (pyInsert d k v) := by
  induction d with
  | nil => simp [pyInsert, keysOf]
  | cons hd tl ih =>
    obtain ⟨k', v'⟩ := hd
    by_cases h : k' = k
    · simp [pyInsert, h, keysOf]
    · simp only [pyInsert, if_neg h, keysOf, List.map_cons, List.mem_cons]
      exact Or.inr ih

theorem mem_keysOf_pyInsert_of_mem {α : Type} {d : List (String × α)} {x : String}
    (k : String) (v : α) (h : x ∈ keysOf d) : x ∈ keysOf (pyInsert d k v) := by
  induction d with
  | nil => simp [keysOf] at h
  | cons hd tl ih =>
    obtain ⟨k', v'⟩ := hd
    simp only [keysOf, List.map_cons, List.mem_cons] at h
    by_cases h1 : k' = k
    · subst h1
      have hins : pyInsert ((k', v') :: tl) k' v = (k', v) :: tl := by
        simp [pyInsert]
      rw [hins]
      simp only [keysOf, List.map_cons, List.mem_cons]
      exact h
    · simp only [pyInsert, if_neg h1, keysOf, List.map_cons, List.mem_cons]
      rcases h with h | h
      · exact Or.inl h
      · exact Or.inr (ih h)

theorem keysOf_pyInsert_of_mem {α : Type} {d : List (String × α)} {k : String}
    (v : α) (h : k ∈ keysOf d) : keysOf (pyInsert d k v) = keysOf d := by
  induction d with
  | nil => simp [keysOf] at h
  | cons hd tl ih =>
    obtain ⟨k', v'⟩ := hd
    simp only [keysOf, List.map_cons, List.mem_cons] at h
    by_cases h1 : k' = k
    · simp [pyInsert, h1, keysOf]
    · rcases h with h | h
      · exact absurd h.symm h1
      · simp only [pyInsert, if_neg h1, keysOf, List.map_cons, List.cons.injEq, true_and]
        exact ih h

theorem pyInsert_eq_append {α : Type} {d : List (String × α)} {k : String}
    (v : α) (h : k ∉ keysOf d) : pyInsert d k v = d ++ [(k, v)] := by
  induction d with
  | nil => simp [pyInsert]
  | cons hd tl ih =>
    obtain ⟨k', v'⟩ := hd
    simp only [keysOf, List.map_cons, List.mem_cons, not_or] at h
    simp only [pyInsert, if_neg (Ne.symm h.1), List.cons_append,
      List.cons.injEq, true_and]
    exact ih h.2

theorem nodup_keysOf_pyInsert {α : Type} {d : List (String × α)} (k : String) (v : α)
    (h : (keysOf d).Nodup) : (keysOf (pyInsert d k v)).Nodup := by
  by_cases hk : k ∈ keysOf d
  · rw [keysOf_pyInsert_of_mem v hk]
    exact h
  · rw [pyInsert_eq_append v hk]
    have : keysOf (d ++ [(k, v)]) = keysOf d ++ [k] := by simp [keysOf]
    rw [this]
    simp [List.nodup_append, h, hk]

theorem pyInsert_pyInsert_same {α : Type} (d : List (String × α)) (k : String) (a b : α) :
    pyInsert (pyInsert d k a) k b = pyInsert d k b := by
  induction d with
  | nil => simp [pyInsert]
  | cons hd tl ih =>
    obtain ⟨k', v'⟩ := hd
    by_cases h : k' = k
    · simp [pyInsert, h]
    · simp [pyInsert, if_neg h, ih]

theorem pyInsert_pyInsert_comm {α : Type} {d : List (String × α)} {k k' : String}
    (v' w : α) (hne : k' ≠ k) (hk : k ∈ keysOf d) :
    pyInsert (pyInsert d k' v') k w = pyInsert (pyInsert d k w) k' v' := by
  induction d with
  | nil => simp [keysOf] at hk
  | cons hd tl ih =>
    obtain ⟨k₁, v₁⟩ := hd
    simp only [keysOf, List.map_cons, List.mem_cons] at hk
    by_cases h1 : k₁ = k'
    · subst h1
      simp [pyInsert, hne]
    · by_cases h2 : k₁ = k
      · subst h2
        simp [pyInsert, h1, Ne.symm hne]
      · rcases hk with hk | hk
        · exact absurd hk.symm h2
        · simp only [pyInsert, if_neg h1, if_neg h2]
          exact congrArg (List.cons (k₁, v₁)) (ih hk)

theorem foldInsert_nil {α : Type} (d : List (String × α)) : foldInsert d [] = d := rfl

theorem foldInsert_cons {α : Type} (d l : List (String × α)) (k : String) (v : α) :
    foldInsert d ((k, v) :: l) = foldInsert (pyInsert d k v) l := rfl

theorem foldInsert_append {α : Type} (d l₁ l₂ : List (String × α)) :
    foldInsert d (l₁ ++ l₂) = foldInsert (foldInsert d l₁) l₂ := by
  simp [foldInsert, List.foldl_append]

theorem mem_keysOf_foldInsert_of_mem {α : Type} {d : List (String × α)} {k : String}
    (l : List (String × α)) (h : k ∈ keysOf d) : k ∈ keysOf (foldInsert d l) := by
  induction l generalizing d with
  | nil => exact h
  | cons hd tl ih =>
    obtain ⟨k₁, v₁⟩ := hd
    rw [foldInsert_cons]
    exact ih (mem_keysOf_pyInsert_of_mem k₁ v₁ h)

theorem nodup_keysOf_foldInsert {α : Type} {d : List (String × α)}
    (l : List (String × α)) (h : (keysOf d).Nodup) : (keysOf (foldInsert d l)).Nodup := by
  induction l generalizing d with
  | nil => exact h
  | cons hd tl ih =>
    obtain ⟨k₁, v₁⟩ := hd
    rw [foldInsert_cons]
    exact ih (nodup_keysOf_pyInsert k₁ v₁ h)

theorem pyInsert_foldInsert_comm {α : Type} {d l : List (String × α)} {k : String}
    (w : α) (hk : k ∈ keysOf d) (hl : k ∉ keysOf l) :
    pyInsert (foldInsert d l) k w = foldInsert (pyInsert d k w) l := by
  induction l generalizing d with
  | nil => rfl
  | cons hd tl ih =>
    obtain ⟨k₁, v₁⟩ := hd
    simp only [keysOf, List.map_cons, List.mem_cons, not_or] at hl
    rw [foldInsert_cons, foldInsert_cons,
      ih (mem_keysOf_pyInsert_of_mem k₁ v₁ hk) hl.2,
      pyInsert_pyInsert_comm v₁ w (fun hh => hl.1 hh.symm) hk]

theorem foldInsert_pyInsert {α : Type} (e d : List (String × α))
    (k : String) (w : α) (hnodup : (keysOf e).Nodup) :
    foldInsert d (pyInsert e k w) = pyInsert (foldInsert d e) k w := by
  induction e generalizing d with
  | nil => rfl
  | cons hd e' ih =>
    obtain ⟨k₁, v₁⟩ := hd
    simp only [keysOf, List.map_cons, List.nodup_cons] at hnodup
    by_cases h1 : k₁ = k
    · subst h1
      have hins : pyInsert ((k₁, v₁) :: e') k₁ w = (k₁, w) :: e' := by
        simp [pyInsert]
      rw [hins, foldInsert_cons, foldInsert_cons,
        pyInsert_foldInsert_comm w (mem_keysOf_pyInsert_self d k₁ v₁) hnodup.1,
        pyInsert_pyInsert_same]
    · have hins : pyInsert ((k₁, v₁) :: e') k w = (k₁, v₁) :: pyInsert e' k w := by
        simp [pyInsert, h1]
      rw [hins, foldInsert_cons, foldInsert_cons, ih (pyInsert d k₁ v₁) hnodup.2]

theorem foldInsert_foldInsert {α : Type} (e d l : List (String × α))
    (hnodup : (keysOf e).Nodup) :
    foldInsert d (foldInsert e l) = foldInsert (foldInsert d e) l := by
  induction l generalizing e with
  | nil => rfl
  | cons hd tl ih =>
    obtain ⟨k₁, v₁⟩ := hd
    rw [foldInsert_cons, foldInsert_cons,
      ih (pyInsert e k₁ v₁) (nodup_keysOf_pyInsert k₁ v₁ hnodup),
      foldInsert_pyInsert e d k₁ v₁ hnodup]

theorem foldInsert_eq_append {α : Type} (l d : List (String × α))
    (hnodup : (keysOf l).Nodup)
    (hdisj : ∀ x ∈ keysOf l, x ∉ keysOf d) : foldInsert d l = d ++ l := by
  induction l generalizing d with
  | nil => simp [foldInsert]
  | cons hd tl ih =>
    obtain ⟨k₁, v₁⟩ := hd
    simp only [keysOf, List.map_cons, List.nodup_cons] at hnodup
    have hmemhead : k₁ ∈ keysOf ((k₁, v₁) :: tl) := by
      simp [keysOf]
    have hk₁ : k₁ ∉ keysOf d := hdisj k₁ hmemhead
    have hdisj' : ∀ x ∈ keysOf tl, x ∉ keysOf (d ++ [(k₁, v₁)]) := by
      intro x hx
      have hxmem : x ∈ keysOf ((k₁, v₁) :: tl) := by
        simp only [keysOf, List.map_cons, List.mem_cons]
        exact Or.inr hx
      have hxd : x ∉ keysOf d := hdisj x hxmem
      have hxk : ¬ x = k₁ := by
        intro hh
        subst hh
        exact hnodup.1 hx
      simp only [keysOf, List.map_append, List.map_cons, List.map_nil,
        List.mem_append, List.mem_cons, List.not_mem_nil, or_false, not_or]
      exact ⟨hxd, hxk⟩
    rw [foldInsert_cons, pyInsert_eq_append v₁ hk₁, ih (d ++ [(k₁, v₁)]) hnodup.2 hdisj',
      List.append_assoc]
    rfl

/-! ### get_cfg lemmas -/

theorem coerceAnn_eq_coercePure (ann : TypeAnn) (v : PyObj)
    (h : ann = .tfloat → metricVal v = true) :
    coerceAnn ann v = .ok (coercePure ann v) := by
  cases ann with
  | tfloat =>
    have hv := h rfl
    cases v <;> simp_all [coerceAnn, coercePure, pyFloat, metricVal]
  | tother => simp [coerceAnn, coercePure]

theorem getCfgGo_eq (c : Cfg) :
    ∀ items : List (String × PyObj), wellAnn c = true → (keysOf items).Nodup →
    getCfgGo c items = .ok (foldInsert items (leafSeq c)) := by
  induction c with
  | nilC =>
    intro items _ _
    rfl
  | consLeaf k vis ann v rest ih =>
    intro items hwa hnd
    simp only [wellAnn, Bool.and_eq_true] at hwa
    by_cases hk : keepField k vis = true
    · have hc := coerceAnn_eq_coercePure ann v (fun ha => by simpa [ha] using hwa.1)
      simp only [getCfgGo, if_pos hk, hc, leafSeq, List.singleton_append]
      rw [ih (pyInsert items k (coercePure ann v)) hwa.2
          (nodup_keysOf_pyInsert k (coercePure ann v) hnd),
        foldInsert_cons]
    · simp only [getCfgGo, if_neg hk, leafSeq, List.nil_append]
      exact ih items hwa.2 hnd
  | consNode k vis sub rest ihsub ihrest =>
    intro items hwa hnd
    simp only [wellAnn, Bool.and_eq_true] at hwa
    by_cases hk : keepField k vis = true
    · have hsub := ihsub [] hwa.1 (by simp [keysOf])
      have hmerge : pyMerge items (foldInsert [] (leafSeq sub))
          = foldInsert items (leafSeq sub) := by
        unfold pyMerge
        rw [foldInsert_foldInsert [] items (leafSeq sub) (by simp [keysOf])]
        rfl
      simp only [getCfgGo, if_pos hk, hsub, hmerge, leafSeq]
      rw [ihrest (foldInsert items (leafSeq sub)) hwa.2
          (nodup_keysOf_foldInsert (leafSeq sub) hnd),
        foldInsert_append]
    · simp only [getCfgGo, if_neg hk, leafSeq, List.nil_append]
      exact ihrest items hwa.2 hnd

/-- C2: for any well-typed nested configuration instance, `get_cfg` returns
the dict built by inserting, in declared preorder, exactly the leaf fields
kept by the filters (name not underscore-prefixed, visibility non-negative,
name not containing "api", at every nesting level), float-annotated values
coerced to float, nested records flattened in place with later merges
overriding earlier keys; the result has no duplicate keys, and when the kept
leaves are collision-free it is exactly that leaf sequence in declared
order. -/
theorem c2_get_cfg_flattening (c : Cfg) (hc : wellAnn c = true) :
    get_cfg c = .ok (foldInsert [] (leafSeq c)) ∧
    (keysOf (foldInsert ([] : List (String × PyObj)) (leafSeq c))).Nodup ∧
    ((keysOf (leafSeq c)).Nodup → get_cfg c = .ok (leafSeq c)) := by
  have h1 := getCfgGo_eq c [] hc (by simp [keysOf])
  refine ⟨h1, nodup_keysOf_foldInsert (leafSeq c) (by simp [keysOf]), ?_⟩
  intro hnd
  rw [show get_cfg c = getCfgGo c [] from rfl, h1,
    foldInsert_eq_append (leafSeq c) [] hnd (by simp [keysOf])]
  simp

/-- Witness for C2 on the concrete nested config `cfgExample`. -/
theorem c2_get_cfg_flattening_witness :
    wellAnn cfgExample = true ∧
    (get_cfg cfgExample = .ok (foldInsert [] (leafSeq cfgExample)) ∧
     (keysOf (foldInsert ([] : List (String × PyObj)) (leafSeq cfgExample))).Nodup ∧
     ((keysOf (leafSeq cfgExample)).Nodup →
       get_cfg cfgExample = .ok (leafSeq cfgExample))) :=
  ⟨by decide, c2_get_cfg_flattening cfgExample (by decide)⟩

/-! ### LocalLogger lemmas -/

theorem normalizeMetricValue_eq (v : PyObj) (h : metricVal v = true) :
    normalizeMetricValue v = .ok (normPure v) := by
  cases v <;> simp_all [normalizeMetricValue, npIsNan, pyFloat, normPure, metricVal]

theorem localLog_step (st : LocalStore) (subset name : String) (v : PyObj)
    (step : Option Int) (ss : List (Option Int)) (vs : List (Option PyObj))
    (h1 : ¬ subset = "image") (h2 : ¬ subset = "html") (hv : metricVal v = true)
    (hs : seriesAt st subset name = some (ss, vs)) :
    ∃ st', LocalLogger.log st subset name v step = .ok st' ∧
      seriesAt st' subset name = some (ss ++ [step], vs ++ [normPure v]) := by
  have hnorm := normalizeMetricValue_eq v hv
  unfold seriesAt at hs
  unfold LocalLogger.log
  rw [if_neg (by simp [h1, h2]), hnorm]
  cases hsub : alookup st subset with
  | none =>
    simp only [hsub, Option.some.injEq, Prod.mk.injEq] at hs
    obtain ⟨hss, hvs⟩ := hs
    subst hss
    subst hvs
    simp only [hsub, Option.getD_none]
    refine ⟨_, rfl, ?_⟩
    simp [seriesAt, alookup_pyInsert_self]
  | some d =>
    simp only [hsub, Option.some.injEq, Prod.mk.injEq] at hs
    simp only [hsub, Option.getD_some]
    cases hname : alookup d name with
    | none =>
      simp only [hname, Option.some.injEq, Prod.mk.injEq] at hs
      obtain ⟨hss, hvs⟩ := hs
      subst hss
      subst hvs
      refine ⟨_, rfl, ?_⟩
      simp [seriesAt, alookup_pyInsert_self]
    | some entry =>
      cases entry with
      | raw w =>
        simp only [hname] at hs
        exact absurd hs (by simp)
      | series ss' vs' =>
        simp only [hname, Option.some.injEq, Prod.mk.injEq] at hs
        obtain ⟨hss, hvs⟩ := hs
        subst hss
        subst hvs
        refine ⟨_, rfl, ?_⟩
        simp [seriesAt, alookup_pyInsert_self]

/-- C5: for any sequence of metric-valued `LocalLogger.log` calls on a
non-image, non-html (subset, name) pair starting from a store whose entry at
that pair is a series (or absent), every call succeeds and the stored series
holds the steps and the NaN-normalized values appended in exactly call
order. -/
theorem c5_series_roundtrip (subset name : String)
    (h1 : ¬ subset = "image") (h2 : ¬ subset = "html")
    (calls : List (Option Int × PyObj)) (hv : ∀ c ∈ calls, metricVal c.2 = true) :
    ∀ (st : LocalStore) (ss : List (Option Int)) (vs : List (Option PyObj)),
      seriesAt st subset name = some (ss, vs) →
      ∃ st', runLogs subset name st calls = .ok st' ∧
        seriesAt st' subset name =
          some (ss ++ calls.map Prod.fst, vs ++ calls.map (fun c => normPure c.2)) := by
  induction calls with
  | nil =>
    intro st ss vs hs
    exact ⟨st, rfl, by simpa using hs⟩
  | cons c rest ih =>
    obtain ⟨step, v⟩ := c
    intro st ss vs hs
    obtain ⟨st1, hlog, hs1⟩ :=
      localLog_step st subset name v step ss vs h1 h2 (hv (step, v) (by simp)) hs
    obtain ⟨st', hrun, hs'⟩ :=
      ih (fun c hc => hv c (by simp [hc])) st1 (ss ++ [step]) (vs ++ [normPure v]) hs1
    refine ⟨st', ?_, ?_⟩
    · simp only [runLogs, hlog]
      exact hrun
    · rw [hs']
      simp

/-- Witness for C5: the spec's example — steps `[1, 2, 3]` with values
`[0.5, NaN, 0.25]` under subset `"train"`, name `"loss"` — stores steps
`[1, 2, 3]` and values `[0.5, null, 0.25]`. -/
theorem c5_series_roundtrip_witness :
    ∃ st', runLogs "train" "loss" []
        [(some 1, .pfloat (1/2)), (some 2, .pnan), (some 3, .pfloat (1/4))] = .ok st' ∧
      seriesAt st' "train" "loss" =
        some (([] : List (Option Int)) ++
            List.map Prod.fst
              [(some 1, PyObj.pfloat (1/2)), (some 2, PyObj.pnan),
                (some 3, PyObj.pfloat (1/4))],
          ([] : List (Option PyObj)) ++
            List.map (fun c => normPure c.2)
              [(some 1, PyObj.pfloat (1/2)), (some 2, PyObj.pnan),
                (some 3, PyObj.pfloat (1/4))]) :=
  c5_series_roundtrip "train" "loss" (by decide) (by decide) _ (by decide) [] [] [] rfl

/-- Counterexample for C6 as stated: a `log` call with a missing metric
value (`None`) does not normalize to a null marker — `np.isnan(None)`
raises `TypeError`, so both `LocalLogger.log` and `AimLogger`'s value
normalization propagate an error. -/
theorem c6_counterexample :
    LocalLogger.log [] "train" "loss" .pnone none = .error .typeError ∧
    AimLogger.logValue .pnone = .error .typeError := by
  constructor
  · rfl
  · rfl

/-- C6 (amended): for every log call whose metric value is numeric
(including NaN), the sinks normalize NaN to the explicit null marker and
never raise — `LocalLogger.log` succeeds whenever the target entry is a
series (or absent), `AimLogger`'s tracked value is the normalized value,
and the image/html branch never raises for any value; a truly non-numeric
value such as `None`, by contrast, raises (see the counterexample). -/
theorem c6_numeric_never_raises :
    (∀ v, metricVal v = true →
      normalizeMetricValue v = .ok (normPure v) ∧
      AimLogger.logValue v = .ok (normPure v) ∧
      (v = .pnan → normPure v = none)) ∧
    (∀ (st : LocalStore) (subset name : String) (v : PyObj) (step : Option Int)
        (ss : List (Option Int)) (vs : List (Option PyObj)),
      metricVal v = true → ¬ subset = "image" → ¬ subset = "html" →
      seriesAt st subset name = some (ss, vs) →
      ∃ st', LocalLogger.log st subset name v step = .ok st') ∧
    (∀ (st : LocalStore) (subset name : String) (v : PyObj) (step : Option Int),
      subset = "image" ∨ subset = "html" →
      ∃ st', LocalLogger.log st subset name v step = .ok st') := by
  refine ⟨?_, ?_, ?_⟩
  · intro v hv
    refine ⟨normalizeMetricValue_eq v hv, normalizeMetricValue_eq v hv, ?_⟩
    intro hvn
    subst hvn
    rfl
  · intro st subset name v step ss vs hv h1 h2 hs
    obtain ⟨st', hlog, _⟩ := localLog_step st subset name v step ss vs h1 h2 hv hs
    exact ⟨st', hlog⟩
  · intro st subset name v step h
    unfold LocalLogger.log
    rw [if_pos h]
    exact ⟨_, rfl⟩

/-- Witness for the amended C6: NaN under subset `"train"` is accepted and
normalized to null, and `None` as an image value is accepted raw. -/
theorem c6_numeric_never_raises_witness :
    (normalizeMetricValue .pnan = .ok (normPure .pnan) ∧
      AimLogger.logValue .pnan = .ok (normPure .pnan) ∧
      (PyObj.pnan = .pnan → normPure .pnan = none)) ∧
    (∃ st', LocalLogger.log [] "train" "loss" .pnan (some 1) = .ok st') ∧
    (∃ st', LocalLogger.log [] "image" "img" .pnone none = .ok st') :=
  ⟨c6_numeric_never_raises.1 .pnan (by decide),
    c6_numeric_never_raises.2.1 [] "train" "loss" .pnan (some 1) [] []
      (by decide) (by decide) (by decide) rfl,
    c6_numeric_never_raises.2.2 [] "image" "img" .pnone none (Or.inl rfl)⟩

/-- C10: for subset `"image"` or `"html"`, `LocalLogger.log` ignores the
step argument and performs no NaN normalization — two calls identical
except for step produce identical stores, the value (any value, NaN
included) is stored raw keyed by name, and a later call for the same name
overwrites the earlier value. -/
theorem c10_artifact_store (st : LocalStore) (subset name : String) (v w : PyObj)
    (s1 s2 : Option Int) (h : subset = "image" ∨ subset = "html") :
    LocalLogger.log st subset name v s1 = LocalLogger.log st subset name v s2 ∧
    ∃ st', LocalLogger.log st subset name v s1 = .ok st' ∧
      entryAt st' subset name = some (.raw v) ∧
      ∃ st'', LocalLogger.log st' subset name w s2 = .ok st'' ∧
        entryAt st'' subset name = some (.raw w) := by
  have hbranch : ∀ (stx : LocalStore) (vx : PyObj) (sx : Option Int),
      LocalLogger.log stx subset name vx sx =
        .ok (pyInsert stx subset
          (pyInsert ((alookup stx subset).getD []) name (.raw vx))) := by
    intro stx vx sx
    unfold LocalLogger.log
    rw [if_pos h]
  refine ⟨by rw [hbranch, hbranch], ?_⟩
  refine ⟨_, hbranch st v s1, ?_, ?_⟩
  · simp [entryAt, alookup_pyInsert_self]
  · refine ⟨_, hbranch _ w s2, ?_⟩
    simp [entryAt, alookup_pyInsert_self, pyInsert_pyInsert_same]

/-- Witness for C10 at concrete inputs: an html artifact logged with two
different steps and with a NaN value, then overwritten. -/
theorem c10_artifact_store_witness :
    LocalLogger.log [] "html" "report" .pnan (some 1)
      = LocalLogger.log [] "html" "report" .pnan (some 2) ∧
    ∃ st', LocalLogger.log [] "html" "report" .pnan (some 1) = .ok st' ∧
      entryAt st' "html" "report" = some (.raw .pnan) ∧
      ∃ st'', LocalLogger.log st' "html" "report" (.pstr "h") (some 2) = .ok st'' ∧
        entryAt st'' "html" "report" = some (.raw (.pstr "h")) :=
  c10_artifact_store [] "html" "report" .pnan (.pstr "h") (some 1) (some 2) (Or.inr rfl)

/-! ### MainLogger dispatch lemmas -/

theorem skips_local_of_localLogger (subset name : String) (s : Sink)
    (h : s.cls = .localLogger) :
    MainLogger.skips subset name "local" s = false := by
  simp [MainLogger.skips, h]

theorem skips_external_internal (name : String) (s : Sink)
    (h : ¬ s.cls = .localLogger) :
    MainLogger.skips "internal" name "external" s = true := by
  simp [MainLogger.skips, h]

theorem skips_external_validation (subset name : String) (s : Sink)
    (h : strContains name "validation_predictions" = true) :
    MainLogger.skips subset name "external" s = true := by
  simp [MainLogger.skips, h]

theorem sinkLog_dummy (s : Sink) (subset name : String) (v : PyObj)
    (step : Option Int) (h : s.cls = .dummyLogger) :
    Sink.log s subset name v step = .ok s := by
  unfold Sink.log
  rw [h]

theorem mainLog_dummy_external (m : MainLogger) (subset name : String) (v : PyObj)
    (step : Option Int) (st' : LocalStore)
    (hext : m.externalSink = dummySink) (hcls : m.localSink.cls = .localLogger)
    (hlog : LocalLogger.log m.localSink.store subset name v step = .ok st') :
    (MainLogger.log m subset name v step).2.2 = none ∧
    (MainLogger.log m subset name v step).2.1 =
      { m with localSink := { m.localSink with store := st' } } ∧
    "local" ∈ (MainLogger.log m subset name v step).1 ∧
    (MainLogger.log m subset name v step).2.1.externalSink = dummySink := by
  have hloc := skips_local_of_localLogger subset name m.localSink hcls
  have hslog : Sink.log m.localSink subset name v step =
      .ok { m.localSink with store := st' } := by
    simp [Sink.log, hcls, hlog]
  have hselog : Sink.log m.externalSink subset name v step = .ok m.externalSink :=
    sinkLog_dummy m.externalSink subset name v step (by rw [hext]; rfl)
  by_cases hskipext : MainLogger.skips subset name "external" m.externalSink = true
  · have hmain : MainLogger.log m subset name v step =
        (["local"], { m with localSink := { m.localSink with store := st' } }, none) := by
      unfold MainLogger.log
      simp [hloc, hslog, hskipext]
    rw [hmain]
    refine ⟨rfl, rfl, by simp, by simp [hext]⟩
  · simp only [Bool.not_eq_true] at hskipext
    have hmain : MainLogger.log m subset name v step =
        (["local", "external"],
          { m with localSink := { m.localSink with store := st' },
                   externalSink := m.externalSink }, none) := by
      unfold MainLogger.log
      simp [hloc, hslog, hskipext, hselog]
    rw [hmain]
    refine ⟨rfl, rfl, by simp, by simp [hext]⟩

/-- C1: if the resolved external constructor raises, `MainLogger.__init__`
catches the exception, emits exactly one warning and fills the external
slot with a `DummyLogger`; a dispatcher whose external slot holds a
`DummyLogger` then accepts every well-formed `log` call without raising,
with the local store receiving the entry (metric entries are appended to
their series, image/html artifacts stored raw) and the external slot left
unchanged. -/
theorem c1_init_failure_isolated :
    (∀ (params : List (String × PyObj)) (e : PyErr),
      (MainLogger.init params (.error e)).2 = 1 ∧
      (MainLogger.init params (.error e)).1.externalSink = dummySink ∧
      (MainLogger.init params (.error e)).1.localSink.cls = .localLogger) ∧
    (∀ (m : MainLogger) (subset name : String) (v : PyObj) (step : Option Int)
        (ss : List (Option Int)) (vs : List (Option PyObj)),
      m.externalSink = dummySink → m.localSink.cls = .localLogger →
      ¬ subset = "image" → ¬ subset = "html" → metricVal v = true →
      seriesAt m.localSink.store subset name = some (ss, vs) →
      ∃ st', (MainLogger.log m subset name v step).2.2 = none ∧
        (MainLogger.log m subset name v step).2.1 =
          { m with localSink := { m.localSink with store := st' } } ∧
        "local" ∈ (MainLogger.log m subset name v step).1 ∧
        (MainLogger.log m subset name v step).2.1.externalSink = dummySink ∧
        seriesAt st' subset name = some (ss ++ [step], vs ++ [normPure v])) ∧
    (∀ (m : MainLogger) (subset name : String) (v : PyObj) (step : Option Int),
      m.externalSink = dummySink → m.localSink.cls = .localLogger →
      subset = "image" ∨ subset = "html" →
      ∃ st', (MainLogger.log m subset name v step).2.2 = none ∧
        (MainLogger.log m subset name v step).2.1 =
          { m with localSink := { m.localSink with store := st' } } ∧
        "local" ∈ (MainLogger.log m subset name v step).1 ∧
        (MainLogger.log m subset name v step).2.1.externalSink = dummySink ∧
        entryAt st' subset name = some (.raw v)) := by
  refine ⟨?_, ?_, ?_⟩
  · intro params e
    exact ⟨rfl, rfl, rfl⟩
  · intro m subset name v step ss vs hext hcls h1 h2 hv hs
    obtain ⟨st', hlog, hs'⟩ :=
      localLog_step m.localSink.store subset name v step ss vs h1 h2 hv hs
    obtain ⟨ha, hb, hc, hd⟩ := mainLog_dummy_external m subset name v step st' hext hcls hlog
    exact ⟨st', ha, hb, hc, hd, hs'⟩
  · intro m subset name v step hext hcls h
    have hlog : LocalLogger.log m.localSink.store subset name v step =
        .ok (pyInsert m.localSink.store subset
          (pyInsert ((alookup m.localSink.store subset).getD []) name (.raw v))) := by
      unfold LocalLogger.log
      rw [if_pos h]
    obtain ⟨ha, hb, hc, hd⟩ := mainLog_dummy_external m subset name v step _ hext hcls hlog
    exact ⟨_, ha, hb, hc, hd, by simp [entryAt, alookup_pyInsert_self]⟩

/-- Witness for C1: a failing constructor at init, then a metric call and an
image call on the resulting dispatcher. -/
theorem c1_init_failure_isolated_witness :
    ((MainLogger.init [] (.error .runtimeError)).2 = 1 ∧
      (MainLogger.init [] (.error .runtimeError)).1.externalSink = dummySink ∧
      (MainLogger.init [] (.error .runtimeError)).1.localSink.cls = .localLogger) ∧
    (∃ st', (MainLogger.log (MainLogger.init [] (.error .runtimeError)).1
          "train" "loss" .pnan (some 1)).2.2 = none ∧
      (MainLogger.log (MainLogger.init [] (.error .runtimeError)).1
          "train" "loss" .pnan (some 1)).2.1 =
        { (MainLogger.init [] (.error .runtimeError)).1 with
            localSink := { (MainLogger.init [] (.error .runtimeError)).1.localSink with
              store := st' } } ∧
      "local" ∈ (MainLogger.log (MainLogger.init [] (.error .runtimeError)).1
          "train" "loss" .pnan (some 1)).1 ∧
      (MainLogger.log (MainLogger.init [] (.error .runtimeError)).1
          "train" "loss" .pnan (some 1)).2.1.externalSink = dummySink ∧
      seriesAt st' "train" "loss" = some ([] ++ [some 1], [] ++ [normPure .pnan])) ∧
    (∃ st', (MainLogger.log (MainLogger.init [] (.error .runtimeError)).1
          "image" "img" (.pstr "png") none).2.2 = none ∧
      (MainLogger.log (MainLogger.init [] (.error .runtimeError)).1
          "image" "img" (.pstr "png") none).2.1 =
        { (MainLogger.init [] (.error .runtimeError)).1 with
            localSink := { (MainLogger.init [] (.error .runtimeError)).1.localSink with
              store := st' } } ∧
      "local" ∈ (MainLogger.log (MainLogger.init [] (.error .runtimeError)).1
          "image" "img" (.pstr "png") none).1 ∧
      (MainLogger.log (MainLogger.init [] (.error .runtimeError)).1
          "image" "img" (.pstr "png") none).2.1.externalSink = dummySink ∧
      entryAt st' "image" "img" = some (.raw (.pstr "png"))) :=
  ⟨c1_init_failure_isolated.1 [] .runtimeError,
    c1_init_failure_isolated.2.1 (MainLogger.init [] (.error .runtimeError)).1
      "train" "loss" .pnan (some 1) [] [] rfl rfl (by decide) (by decide) (by decide) rfl,
    c1_init_failure_isolated.2.2 (MainLogger.init [] (.error .runtimeError)).1
      "image" "img" (.pstr "png") none rfl rfl (Or.inl rfl)⟩

/-- C3: a `log` call with subset `"internal"` never invokes the external
slot's `log` method, whatever sink (not itself a `LocalLogger`) that slot
holds — including a deliberately failing stub. -/
theorem c3_internal_never_external (m : MainLogger) (name : String) (v : PyObj)
    (step : Option Int) (h : ¬ m.externalSink.cls = .localLogger) :
    "external" ∉ (MainLogger.log m "internal" name v step).1 := by
  have hext := skips_external_internal name m.externalSink h
  unfold MainLogger.log
  by_cases hloc : MainLogger.skips "internal" name "local" m.localSink = true
  · simp [hloc, hext]
  · simp only [Bool.not_eq_true] at hloc
    simp only [hloc, Bool.false_eq_true, if_false]
    cases hlog : Sink.log m.localSink "internal" name v step with
    | error e => simp
    | ok l => simp [hext]

/-- Witness for C3: a deliberately failing external stub is never invoked on
an internal entry. -/
theorem c3_internal_never_external_witness :
    "external" ∉ (MainLogger.log
      { localSink := { cls := .localLogger, raisesOnLog := false, store := [] },
        externalSink := { cls := .externalLogger "stub", raisesOnLog := true, store := [] } }
      "internal" "current_step" (.pfloat 7) none).1 :=
  c3_internal_never_external _ "current_step" (.pfloat 7) none (by decide)

/-- C4: a `log` call whose name contains `"validation_predictions"` never
invokes the external slot's `log` method, for every subset, value, step and
dispatcher state. -/
theorem c4_validation_never_external (m : MainLogger) (subset name : String)
    (v : PyObj) (step : Option Int)
    (h : strContains name "validation_predictions" = true) :
    "external" ∉ (MainLogger.log m subset name v step).1 := by
  have hext := skips_external_validation subset name m.externalSink h
  unfold MainLogger.log
  by_cases hloc : MainLogger.skips subset name "local" m.localSink = true
  · simp [hloc, hext]
  · simp only [Bool.not_eq_true] at hloc
    simp only [hloc, Bool.false_eq_true, if_false]
    cases hlog : Sink.log m.localSink subset name v step with
    | error e => simp
    | ok l => simp [hext]

/-- Witness for C4: a validation-predictions artifact under subset `"train"`
with a healthy external sink is still kept away from it. -/
theorem c4_validation_never_external_witness :
    "external" ∉ (MainLogger.log
      { localSink := { cls := .localLogger, raisesOnLog := false, store := [] },
        externalSink := { cls := .externalLogger "Neptune", raisesOnLog := false, store := [] } }
      "train" "validation_predictions_x" (.pstr "df") none).1 :=
  c4_validation_never_external _ "train" "validation_predictions_x" (.pstr "df") none
    (by decide)

/-- Counterexample for C8 as stated: with a healthy external sink, a failure
inside the local sink's `log` call (here a `TypeError` from `np.isnan(None)`)
propagates out of `MainLogger.log` and the external sink is never invoked —
the sinks are not invoked independently. -/
theorem c8_counterexample :
    (MainLogger.log
      { localSink := { cls := .localLogger, raisesOnLog := false, store := [] },
        externalSink := { cls := .externalLogger "Neptune", raisesOnLog := false, store := [] } }
      "train" "loss" .pnone none).2.2 = some .typeError ∧
    (MainLogger.log
      { localSink := { cls := .localLogger, raisesOnLog := false, store := [] },
        externalSink := { cls := .externalLogger "Neptune", raisesOnLog := false, store := [] } }
      "train" "loss" .pnone none).1 = ["local"] := by
  exact ⟨rfl, rfl⟩

/-- C8 (amended): sink invocation is sequential, local slot first, with no
per-call failure boundary.  Hence a failure inside the external sink's
`log` does not prevent the local sink from receiving the call — whenever
the local sink's `log` succeeds, the local slot is invoked and updated no
matter what the external sink then does — while a failure inside the local
sink's `log` propagates and the external sink is not invoked at all. -/
theorem c8_sequential_no_isolation :
    (∀ (m : MainLogger) (subset name : String) (v : PyObj) (step : Option Int) (l : Sink),
      m.localSink.cls = .localLogger →
      Sink.log m.localSink subset name v step = .ok l →
      "local" ∈ (MainLogger.log m subset name v step).1 ∧
      (MainLogger.log m subset name v step).2.1.localSink = l) ∧
    (∀ (m : MainLogger) (subset name : String) (v : PyObj) (step : Option Int) (err : PyErr),
      m.localSink.cls = .localLogger →
      Sink.log m.localSink subset name v step = .error err →
      MainLogger.log m subset name v step = (["local"], m, some err)) := by
  constructor
  · intro m subset name v step l hcls hok
    have hloc := skips_local_of_localLogger subset name m.localSink hcls
    unfold MainLogger.log
    simp only [hloc, Bool.false_eq_true, if_false, hok]
    by_cases hext : MainLogger.skips subset name "external" m.externalSink = true
    · simp [hext]
    · simp only [Bool.not_eq_true] at hext
      simp only [hext, Bool.false_eq_true, if_false]
      cases hlog2 : Sink.log m.externalSink subset name v step with
      | ok e => simp
      | error e2 => simp
  · intro m subset name v step err hcls herr
    have hloc := skips_local_of_localLogger subset name m.localSink hcls
    unfold MainLogger.log
    simp [hloc, herr]

/-- Witness for the amended C8: with a deliberately failing external stub,
a metric call still reaches and updates the local sink, and with a local
`TypeError` the dispatcher stops before the external slot. -/
theorem c8_sequential_no_isolation_witness :
    ("local" ∈ (MainLogger.log
        { localSink := { cls := .localLogger, raisesOnLog := false, store := [] },
          externalSink := { cls := .externalLogger "stub", raisesOnLog := true, store := [] } }
        "train" "loss" (.pfloat 1) none).1 ∧
      (MainLogger.log
        { localSink := { cls := .localLogger, raisesOnLog := false, store := [] },
          externalSink := { cls := .externalLogger "stub", raisesOnLog := true, store := [] } }
        "train" "loss" (.pfloat 1) none).2.1.localSink =
        { cls := .localLogger, raisesOnLog := false,
          store := [("train", [("loss", .series [none] [some (.pfloat 1)])])] }) ∧
    MainLogger.log
      { localSink := { cls := .localLogger, raisesOnLog := false, store := [] },
        externalSink := { cls := .externalLogger "stub", raisesOnLog := true, store := [] } }
      "train" "loss" .pnone none =
      (["local"],
        { localSink := { cls := .localLogger, raisesOnLog := false, store := [] },
          externalSink := { cls := .externalLogger "stub", raisesOnLog := true, store := [] } },
        some .typeError) :=
  ⟨c8_sequential_no_isolation.1 _ "train" "loss" (.pfloat 1) none _ rfl rfl,
    c8_sequential_no_isolation.2 _ "train" "loss" .pnone none .typeError rfl rfl⟩

/-- C7: `Loggers.get` of any name absent from the registry returns the
`DummyLogger` class (resolution is total and never fails), `Loggers.names`
is the sorted list of registered names, and `DummyLogger.log` is a true
no-op — no state mutation and no exception — for arbitrary inputs,
including a NaN value and a missing step. -/
theorem c7_registry_fallback :
    (∀ name, alookup Loggers.registry name = none → Loggers.get name = .dummyLogger) ∧
    Loggers.names = ["Neptune", "None"] ∧
    List.Pairwise (fun a b => strLeB a b = true) Loggers.names ∧
    (∀ n, n ∈ Loggers.names ↔ n ∈ keysOf Loggers.registry) ∧
    (∀ (s : Sink) (subset name : String) (v : PyObj) (step : Option Int),
      s.cls = .dummyLogger → Sink.log s subset name v step = .ok s) := by
  refine ⟨?_, ?_, ?_, ?_, ?_⟩
  · intro name h
    unfold Loggers.get
    rw [h]
    rfl
  · decide
  · decide
  · intro n
    show n ∈ Loggers.names ↔ n ∈ keysOf Loggers.registry
    have h1 : Loggers.names = ["Neptune", "None"] := by decide
    have h2 : keysOf Loggers.registry = ["None", "Neptune"] := by decide
    rw [h1, h2]
    simp [or_comm]
  · exact fun s subset name v step h => sinkLog_dummy s subset name v step h

/-- Witness for C7: an unregistered name resolves to `DummyLogger`, and a
`DummyLogger` instance absorbs a NaN value with a missing step untouched. -/
theorem c7_registry_fallback_witness :
    Loggers.get "WandB" = .dummyLogger ∧
    Sink.log { cls := .dummyLogger, raisesOnLog := false, store := [] }
        "train" "loss" .pnan none =
      .ok { cls := .dummyLogger, raisesOnLog := false, store := [] } :=
  ⟨c7_registry_fallback.1 "WandB" rfl,
    c7_registry_fallback.2.2.2.2 _ "train" "loss" .pnan none rfl⟩

/-- C9: once the module path resolves, `_load_cls` fails — with the
descriptive message `f"{module_path} file should contain {cls_name} class"`
— exactly when the named class is absent from the resolved module; when the
class is present, `load_config` returns an instance of it constructed with
no arguments. -/
theorem c9_load_missing_class (env : List (String × PyModule)) (path cls : String)
    (m : PyModule) (hm : alookup env (fixModulePath path) = some m) :
    (alookup m.symbols cls = none ↔
      load_cls env path cls =
        .error (path ++ " file should contain " ++ cls ++ " class")) ∧
    (∀ c, alookup m.symbols cls = some c →
      load_config env path cls = .ok { cls := c, args := [] }) := by
  constructor
  · constructor
    · intro h
      simp only [load_cls, hm, h]
    · intro h
      cases hsym : alookup m.symbols cls with
      | none => rfl
      | some c =>
        simp only [load_cls, hm, hsym] at h
        simp at h
  · intro c hc
    simp only [load_config, load_cls, hm, hc]

/-- Witness for C9: a one-module environment where `tests/config.py`
resolves to module `tests.config` holding a `Config` class. -/
theorem c9_load_missing_class_witness :
    (alookup (PyModule.mk [("Config", "ConfigImpl")]).symbols "Config" = none ↔
      load_cls [("tests.config", PyModule.mk [("Config", "ConfigImpl")])]
          "tests/config.py" "Config" =
        .error ("tests/config.py" ++ " file should contain " ++ "Config" ++ " class")) ∧
    (∀ c, alookup (PyModule.mk [("Config", "ConfigImpl")]).symbols "Config" = some c →
      load_config [("tests.config", PyModule.mk [("Config", "ConfigImpl")])]
          "tests/config.py" "Config" =
        .ok { cls := c, args := [] }) :=
  c9_load_missing_class _ "tests/config.py" "Config" _ rfl
